import Mathlib

/-!
Verification of the text-to-table formatter and webhook handler of this
repository (`app.py` / `image_to_text.py`).

Strings are modelled as `List Char`.  Python's whitespace set (for `str.strip`
and the regex class `\s`) is modelled by its ASCII part.  The fixed regular
expression `\t|\s{2,}` of `format_text_to_table` is modelled by a faithful
emulation of `re.split`'s leftmost scan: at each position the alternative
`\t` is tried first (matching a single tab) and otherwise `\s{2,}` matches
greedily a maximal whitespace run of length at least two.
-/

/-- A Python `str`, modelled as a list of characters. -/
abbrev Str := List Char

/-- The ASCII part of Python's whitespace class (` `, `\t`, `\n`, `\r`,
vertical tab, form feed), used by both `str.strip()` and the regex `\s`. -/
def isWS (c : Char) : Bool :=
  c = ' ' || c = '\t' || c = '\n' || c = '\r' || c = Char.ofNat 11 || c = Char.ofNat 12

/-- Whether a string starts with a whitespace character. -/
def firstWS : Str → Bool
  | [] => false
  | c :: _ => isWS c

/-- Remove trailing whitespace (the right half of Python's `str.strip()`). -/
def stripRight : Str → Str
  | [] => []
  | c :: rest =>
    match stripRight rest with
    | [] => if isWS c then [] else [c]
    | r => c :: r

/-- Python's `str.strip()`: remove leading and trailing whitespace. -/
def strip (l : Str) : Str := stripRight (l.dropWhile isWS)

/-- Python's `text.split(sep)` for a single-character separator
(as used by `text.split('\n')` in `format_text_to_table`). -/
def splitOnChar (sep : Char) : Str → List Str
  | [] => [[]]
  | c :: rest =>
    if c = sep then [] :: splitOnChar sep rest
    else
      match splitOnChar sep rest with
      | [] => [[c]]
      | t :: ts => (c :: t) :: ts

/-- Prepend a character to the first field of a split result. -/
def consHead (c : Char) : List Str → List Str
  | [] => [[c]]
  | t :: ts => (c :: t) :: ts

/-- Fueled emulation of Python's `re.split(r'\t|\s{2,}', l)`.

`re.split` scans left to right for the leftmost match of the pattern.  At a
position holding a tab the alternative `\t` matches first (one character);
otherwise `\s{2,}` matches exactly when the position holds a whitespace
character followed by another one, and it greedily consumes the whole
whitespace run.  The fuel argument only makes the recursion structural;
`reSplit` below instantiates it sufficiently. -/
def reSplitF : Nat → Str → List Str
  | 0, _ => [[]]
  | _ + 1, [] => [[]]
  | fuel + 1, c :: rest =>
    if c = '\t' then [] :: reSplitF fuel rest
    else if isWS c && firstWS rest then [] :: reSplitF fuel (rest.dropWhile isWS)
    else consHead c (reSplitF fuel rest)

/-- Python's `re.split(r'\t|\s{2,}', l)` (fields between matches, in order,
empty fields included, no capture groups). -/
def reSplit (l : Str) : List Str := reSplitF l.length l

/-- Fueled splitter following the specification's words: a delimiter is "a tab
or a run of two or more whitespace characters", read as a maximal whitespace
run that contains a tab or has length at least two. -/
def specSplitF : Nat → Str → List Str
  | 0, _ => [[]]
  | _ + 1, [] => [[]]
  | fuel + 1, c :: rest =>
    if isWS c && (decide (2 ≤ (c :: rest.takeWhile isWS).length)
        || (c :: rest.takeWhile isWS).contains '\t') then
      [] :: specSplitF fuel (rest.dropWhile isWS)
    else consHead c (specSplitF fuel rest)

/-- The specification-side splitter ("split on a tab or a run of two or more
whitespace characters"), defined from the claim's words, to be compared with
the source-faithful `reSplit`. -/
def specSplit (l : Str) : List Str := specSplitF l.length l

/-- Strip every field and drop the fields that are empty after stripping
(models `[col.strip() for col in columns if col.strip()]`). -/
def postTok (ts : List Str) : List Str :=
  (ts.map strip).filter (fun t => !t.isEmpty)

/-- Whether a string contains a tab or two consecutive whitespace characters,
i.e. whether the pattern `\t|\s{2,}` matches somewhere in it. -/
def hasDelim : Str → Bool
  | [] => false
  | c :: rest => (c = '\t') || (isWS c && firstWS rest) || hasDelim rest


/- ### The formatter pipeline (`format_text_to_table`, app.py lines 36-67) -/

/-- Result of one Python primitive call in the `try` body, `none` meaning the
call raised.  `str.split` on a `str` never raises. -/
def pySplitLines (text : Str) : Option (List Str) := some (splitOnChar '\n' text)

/-- `str.strip()` on a `str` never raises. -/
def pyStrip (l : Str) : Option Str := some (strip l)

/-- `re.split` with the fixed, valid pattern `\t|\s{2,}` on a `str` never
raises. -/
def pyReSplit (l : Str) : Option (List Str) := some (reSplit l)

/-- Run a fallible computation over every list element, propagating a raise. -/
def mapOptM (f : α → Option β) : List α → Option (List β)
  | [] => some []
  | x :: xs =>
    (f x).bind fun y => (mapOptM f xs).bind fun ys => some (y :: ys)

/-- The `try` body of `format_text_to_table` with every Python primitive as a
fallible call (`none` = the body raised): split the text on newlines, strip
each line and drop lines that are empty after stripping, split each kept line
with `re.split`, strip each column and drop empty columns, and keep the rows
that are non-empty. -/
def format_text_to_table_checked (text : Str) : Option (List (List Str)) :=
  (pySplitLines text).bind fun rawLines =>
  (mapOptM pyStrip rawLines).bind fun strippedLines =>
  (mapOptM (fun line =>
      (pyReSplit line).bind fun cols =>
      (mapOptM pyStrip cols).bind fun strippedCols =>
      some (strippedCols.filter (fun c => !c.isEmpty)))
    (strippedLines.filter (fun l => !l.isEmpty))).bind fun rows =>
  some (rows.filter (fun r => !r.isEmpty))

/-- The `try` body of `format_text_to_table` written directly as a total
function (same pipeline as `format_text_to_table_checked`). -/
def format_text_to_table_body (text : Str) : List (List Str) :=
  let lines := ((splitOnChar '\n' text).map strip).filter (fun l => !l.isEmpty)
  let rows := lines.map (fun line => ((reSplit line).map strip).filter (fun c => !c.isEmpty))
  rows.filter (fun r => !r.isEmpty)

/-- `format_text_to_table` (app.py lines 36-67): run the `try` body; if it
raised, the `except` branch returns `[[text]]`. -/
def format_text_to_table (text : Str) : List (List Str) :=
  match format_text_to_table_checked text with
  | some table => table
  | none => [[text]]

/-- `format_text_to_table` with the raising of the `try` body made an explicit
parameter: `exc = some e` models the body raising exception `e` (in which case
the `except` branch at app.py line 65-67 runs), `exc = none` models a normal
run of the body. -/
def format_text_to_table_run (exc : Option Str) (text : Str) : List (List Str) :=
  match exc with
  | some _ => [[text]]
  | none => format_text_to_table_body text

/-- Specification-side tokenisation of one line: split on "a tab or a run of
two or more whitespace characters" (`specSplit`), then drop tokens that are
empty after stripping. -/
def specTokens (line : Str) : List Str :=
  ((specSplit line).map strip).filter (fun t => !t.isEmpty)

/-- The formatter as described by the specification: split the input by
newlines, drop lines that are empty after stripping, and turn each remaining
line into one row of its tokens. -/
def format_text_to_table_spec (text : Str) : List (List Str) :=
  (((splitOnChar '\n' text).map strip).filter (fun l => !l.isEmpty)).map specTokens

/- ### `save_to_spreadsheet` (app.py lines 84-122) -/

/-- The label `'日時'` of the first header cell. -/
def dateLabel : Str := "日時".toList

/-- The numbered column label `f'列{i+1}'` for index `i`. -/
def colLabel (i : Nat) : Str := '列' :: Nat.toDigits 10 (i + 1)

/-- The `values` list built by `save_to_spreadsheet` and sent to the
spreadsheet append call: a header row (`'日時'` followed by one numbered label
per column of the first parsed row, or none when nothing parsed), then one row
per parsed row, each prefixed with the timestamp string `current_time`. -/
def save_to_spreadsheet_values (text : Str) (current_time : Str) : List (List Str) :=
  let table_data := format_text_to_table text
  let header := dateLabel ::
    (List.range (match table_data with | [] => 0 | r :: _ => r.length)).map colLabel
  header :: table_data.map (fun row => current_time :: row)

/- ### The `/callback` route (app.py lines 143-157) -/

/-- Outcome of `handler.handle(body, signature)`: it returns normally, raises
`InvalidSignatureError` when signature verification of the body against the
signature header fails, or raises some other exception `e` - e.g. a parse
error on a malformed body whose signature is valid, or an exception that the
dispatched `handle_image_message` lets escape (which `C6_counterexample`
shows is possible when the error reply itself raises). -/
inductive HandleOutcome where
  | success
  | invalidSignature
  | otherRaise (e : Str)
deriving DecidableEq

/-- What the `/callback` route does: return the body `'OK'`, abort with an
HTTP status, or let an exception `e` propagate uncaught out of the route
(Flask then turns it into a 500 response; the route itself produces
nothing). -/
inductive CallbackResult where
  | okBody
  | aborted (status : Nat)
  | raised (e : Str)
deriving DecidableEq

/-- The `/callback` route: `handler.handle` inside `try` with a single
`except InvalidSignatureError: abort(400)` clause, then `return 'OK'`.  Any
other exception raised by `handler.handle` is not caught and propagates out
of the route. -/
def callback_route (o : HandleOutcome) : CallbackResult :=
  match o with
  | HandleOutcome.invalidSignature => CallbackResult.aborted 400
  | HandleOutcome.success => CallbackResult.okBody
  | HandleOutcome.otherRaise e => CallbackResult.raised e

/- ### `handle_image_message` (app.py lines 159-202) -/

/-- The externally visible actions attempted by the image-message handler. -/
inductive StepTag where
  | getContent
  | writeFile
  | extractText
  | formatRows
  | appendSheet
  | sendReply
  | sendNoIdReply
  | sendErrorReply
deriving DecidableEq

/-- Environment of one handler invocation: the outcome of every external call
(`Except.error e` models the call raising exception `e`), plus the
`SPREADSHEET_ID` environment variable.

Fields in order: `contentRes` (`line_bot_api.get_message_content`), `writeRes`
(writing the image file), `extractInner` (the body of
`extract_text_from_image`: `Image.open` + the Gemini call, returning the
extracted text), `serviceRes` (loading the service-account credentials in
`get_google_sheets_service`), `appendRes` (the spreadsheet `append` call),
`replyRes` (`reply_message` in the `try` body), `errorReplyRes`
(`reply_message` in the `except` branch), `spreadsheetId`. -/
structure Env where
  contentRes : Except Str Unit
  writeRes : Except Str Unit
  extractInner : Except Str Str
  serviceRes : Except Str Unit
  appendRes : Except Str Unit
  replyRes : Except Str Unit
  errorReplyRes : Except Str Unit
  spreadsheetId : Option Str

/-- The message head used in the error strings `f'エラーが発生しました: ...'`. -/
def errText : Str := "エラーが発生しました: ".toList

/-- The head of the success reply built at app.py line 189. -/
def successHead : Str := "画像から文字を抽出し、スプレッドシートに保存しました。\n\n抽出した内容:\n".toList

/-- The reply sent when `SPREADSHEET_ID` is not configured. -/
def noIdText : Str := "スプレッドシートIDが設定されていません。".toList

/-- `extract_text_from_image`: its whole body is inside `try`, and the
`except` branch turns any exception into the error string - the function
itself never raises. -/
def extract_text_from_image (r : Except Str Str) : Str :=
  match r with
  | Except.ok t => t
  | Except.error e => errText ++ e

/-- `save_to_spreadsheet`: returns the steps it attempts and the exception it
lets escape.  A credentials failure is caught in `get_google_sheets_service`
(which returns `None`, making `save_to_spreadsheet` return early); any other
exception, in particular a failing `append` call, is caught by its own
`except Exception` branch, so no exception ever escapes. -/
def save_to_spreadsheet_run (env : Env) : List StepTag × Option Str :=
  match env.serviceRes with
  | Except.error _ => ([], none)
  | Except.ok _ =>
    match env.appendRes with
    | Except.ok _ => ([StepTag.formatRows, StepTag.appendSheet], none)
    | Except.error _ => ([StepTag.formatRows, StepTag.appendSheet], none)

/-- Result of the `try` body of `handle_image_message`: the steps attempted,
the reply successfully delivered (if any), and the exception that escaped the
body (if any). -/
structure TryResult where
  trace : List StepTag
  reply : Option Str
  exc : Option Str
deriving DecidableEq

/-- The `try` body of `handle_image_message` (app.py lines 161-195): download
the message content, write the image file, extract the text (never raises),
then - when `SPREADSHEET_ID` is configured - run `save_to_spreadsheet` and
send the success reply, otherwise send the not-configured reply. -/
def handle_try (env : Env) : TryResult :=
  match env.contentRes with
  | Except.error e => ⟨[StepTag.getContent], none, some e⟩
  | Except.ok _ =>
    match env.writeRes with
    | Except.error e => ⟨[StepTag.getContent, StepTag.writeFile], none, some e⟩
    | Except.ok _ =>
      let extracted := extract_text_from_image env.extractInner
      match env.spreadsheetId with
      | some _ =>
        let ss := save_to_spreadsheet_run env
        match ss.2 with
        | some e =>
          ⟨[StepTag.getContent, StepTag.writeFile, StepTag.extractText] ++ ss.1, none, some e⟩
        | none =>
          match env.replyRes with
          | Except.ok _ =>
            ⟨[StepTag.getContent, StepTag.writeFile, StepTag.extractText] ++ ss.1
                ++ [StepTag.sendReply],
              some (successHead ++ extracted), none⟩
          | Except.error e =>
            ⟨[StepTag.getContent, StepTag.writeFile, StepTag.extractText] ++ ss.1
                ++ [StepTag.sendReply],
              none, some e⟩
      | none =>
        match env.replyRes with
        | Except.ok _ =>
          ⟨[StepTag.getContent, StepTag.writeFile, StepTag.extractText,
              StepTag.sendNoIdReply],
            some noIdText, none⟩
        | Except.error e =>
          ⟨[StepTag.getContent, StepTag.writeFile, StepTag.extractText,
              StepTag.sendNoIdReply],
            none, some e⟩

/-- What `handle_image_message` does overall: return normally or let an
exception propagate to the dispatcher. -/
inductive HandlerOutcome where
  | returned
  | raised (e : Str)
deriving DecidableEq

/-- Final result of one `handle_image_message` invocation. -/
structure HandlerResult where
  trace : List StepTag
  reply : Option Str
  outcome : HandlerOutcome
deriving DecidableEq

/-- `handle_image_message` (app.py lines 159-202): run the `try` body; on an
exception, the `except Exception` branch sends the error reply - and if that
`reply_message` call itself raises, its exception propagates out of the
handler. -/
def handle_image_message (env : Env) : HandlerResult :=
  let t := handle_try env
  match t.exc with
  | none => ⟨t.trace, t.reply, HandlerOutcome.returned⟩
  | some e =>
    match env.errorReplyRes with
    | Except.ok _ =>
      ⟨t.trace ++ [StepTag.sendErrorReply], some (errText ++ e), HandlerOutcome.returned⟩
    | Except.error e2 =>
      ⟨t.trace ++ [StepTag.sendErrorReply], none, HandlerOutcome.raised e2⟩


/-- Environment for claim C7's counterexample: the spreadsheet id is
configured but downloading the message content raises. -/
def envC7skip : Env :=
  ⟨Except.error ['x'], Except.ok (), Except.ok ['t'], Except.ok (), Except.ok (),
    Except.ok (), Except.ok (), some ['S']⟩

/-- Environment for claim C7's witness: every external call succeeds and the
spreadsheet id is configured. -/
def envC7ok : Env :=
  ⟨Except.ok (), Except.ok (), Except.ok ['t'], Except.ok (), Except.ok (),
    Except.ok (), Except.ok (), some ['S']⟩

/-- Environment for claim C6's counterexample: the spreadsheet `append` call
raises (and is swallowed inside `save_to_spreadsheet`). -/
def envC6sheet : Env :=
  ⟨Except.ok (), Except.ok (), Except.ok ['t'], Except.ok (), Except.error ['b'],
    Except.ok (), Except.ok (), some ['S']⟩

/-- Environment for claim C6's counterexample: the success reply raises and
the error reply raises as well, so the handler itself raises. -/
def envC6prop : Env :=
  ⟨Except.ok (), Except.ok (), Except.ok ['t'], Except.ok (), Except.ok (),
    Except.error ['r'], Except.error ['q'], some ['S']⟩

/-- Environment for claim C6's witness: downloading raises and the error
reply succeeds. -/
def envC6wit : Env :=
  ⟨Except.error ['x'], Except.ok (), Except.ok ['t'], Except.ok (), Except.ok (),
    Except.ok (), Except.ok (), some ['S']⟩

/- ### Fuel elimination -/

theorem length_dropWhile_ws_le (l : Str) : (l.dropWhile isWS).length ≤ l.length :=
  (List.dropWhile_suffix isWS).length_le

theorem reSplitF_fuel_irrel : ∀ (f g : Nat) (l : Str),
    l.length ≤ f → l.length ≤ g → reSplitF f l = reSplitF g l := by
  intro f
  induction f with
  | zero =>
    intro g l hf _
    have : l = [] := by
      cases l with
      | nil => rfl
      | cons c rest => simp at hf
    subst this
    cases g <;> rfl
  | succ f ih =>
    intro g l hf hg
    cases l with
    | nil => cases g <;> rfl
    | cons c rest =>
      cases g with
      | zero => simp at hg
      | succ g =>
        simp only [reSplitF]
        have h1 : rest.length ≤ f := by simp only [List.length_cons] at hf; omega
        have h2 : rest.length ≤ g := by simp only [List.length_cons] at hg; omega
        have h3 : (rest.dropWhile isWS).length ≤ f :=
          le_trans (length_dropWhile_ws_le rest) h1
        have h4 : (rest.dropWhile isWS).length ≤ g :=
          le_trans (length_dropWhile_ws_le rest) h2
        rw [ih g rest h1 h2, ih g (rest.dropWhile isWS) h3 h4]

theorem specSplitF_fuel_irrel : ∀ (f g : Nat) (l : Str),
    l.length ≤ f → l.length ≤ g → specSplitF f l = specSplitF g l := by
  intro f
  induction f with
  | zero =>
    intro g l hf _
    have : l = [] := by
      cases l with
      | nil => rfl
      | cons c rest => simp at hf
    subst this
    cases g <;> rfl
  | succ f ih =>
    intro g l hf hg
    cases l with
    | nil => cases g <;> rfl
    | cons c rest =>
      cases g with
      | zero => simp at hg
      | succ g =>
        simp only [specSplitF]
        have h1 : rest.length ≤ f := by simp only [List.length_cons] at hf; omega
        have h2 : rest.length ≤ g := by simp only [List.length_cons] at hg; omega
        have h3 : (rest.dropWhile isWS).length ≤ f :=
          le_trans (length_dropWhile_ws_le rest) h1
        have h4 : (rest.dropWhile isWS).length ≤ g :=
          le_trans (length_dropWhile_ws_le rest) h2
        rw [ih g rest h1 h2, ih g (rest.dropWhile isWS) h3 h4]

theorem reSplit_nil : reSplit [] = [[]] := rfl

theorem reSplit_cons (c : Char) (rest : Str) :
    reSplit (c :: rest) =
      if c = '\t' then [] :: reSplit rest
      else if isWS c && firstWS rest then [] :: reSplit (rest.dropWhile isWS)
      else consHead c (reSplit rest) := by
  show reSplitF (rest.length + 1) (c :: rest) = _
  simp only [reSplitF]
  rw [reSplitF_fuel_irrel rest.length rest.length rest le_rfl le_rfl]
  rw [reSplitF_fuel_irrel rest.length (rest.dropWhile isWS).length (rest.dropWhile isWS)
    (length_dropWhile_ws_le rest) le_rfl]
  rfl

theorem specSplit_nil : specSplit [] = [[]] := rfl

theorem specSplit_cons_raw (c : Char) (rest : Str) :
    specSplit (c :: rest) =
      if isWS c && (decide (2 ≤ (c :: rest.takeWhile isWS).length)
          || (c :: rest.takeWhile isWS).contains '\t') then
        [] :: specSplit (rest.dropWhile isWS)
      else consHead c (specSplit rest) := by
  show specSplitF (rest.length + 1) (c :: rest) = _
  simp only [specSplitF]
  rw [specSplitF_fuel_irrel rest.length rest.length rest le_rfl le_rfl]
  rw [specSplitF_fuel_irrel rest.length (rest.dropWhile isWS).length (rest.dropWhile isWS)
    (length_dropWhile_ws_le rest) le_rfl]
  rfl

/- ### Basic lemmas about `strip` and `consHead` -/

theorem consHead_ne_nil (c : Char) (X : List Str) : consHead c X ≠ [] := by
  cases X <;> simp [consHead]

theorem stripRight_cons_not_ws {c : Char} (hc : isWS c = false) (l : Str) :
    stripRight (c :: l) = c :: stripRight l := by
  simp only [stripRight]
  cases h : stripRight l with
  | nil => simp [hc]
  | cons r rs => rfl

theorem strip_nil : strip [] = [] := rfl

theorem strip_cons_ws {c : Char} (hc : isWS c = true) (l : Str) :
    strip (c :: l) = strip l := by
  simp [strip, List.dropWhile_cons, hc]

theorem strip_cons_not_ws {c : Char} (hc : isWS c = false) (l : Str) :
    strip (c :: l) = c :: stripRight l := by
  simp [strip, List.dropWhile_cons, hc, stripRight_cons_not_ws hc]

theorem strip_cons_not_ws_ne_nil {c : Char} (hc : isWS c = false) (l : Str) :
    strip (c :: l) ≠ [] := by
  rw [strip_cons_not_ws hc]
  simp

theorem firstWS_dropWhile (l : Str) : firstWS (l.dropWhile isWS) = false := by
  induction l with
  | nil => rfl
  | cons c rest ih =>
    by_cases h : isWS c = true
    · simpa [List.dropWhile_cons, h] using ih
    · simp only [Bool.not_eq_true] at h
      simp [List.dropWhile_cons, h, firstWS]

theorem firstWS_stripRight {l : Str} (h : firstWS l = false) :
    firstWS (stripRight l) = false := by
  cases l with
  | nil => rfl
  | cons c rest =>
    have hc : isWS c = false := h
    rw [stripRight_cons_not_ws hc]
    exact hc

theorem stripRight_cons (c : Char) (l : Str) :
    stripRight (c :: l) = match stripRight l with
      | [] => if isWS c = true then [] else [c]
      | r :: rs => c :: r :: rs := by
  simp only [stripRight]
  cases stripRight l <;> rfl

theorem stripRight_idem (l : Str) : stripRight (stripRight l) = stripRight l := by
  induction l with
  | nil => rfl
  | cons c rest ih =>
    cases h : stripRight rest with
    | nil =>
      by_cases hc : isWS c = true
      · simp [stripRight_cons, h, hc, stripRight]
      · simp only [Bool.not_eq_true] at hc
        simp [stripRight_cons, h, hc, stripRight]
    | cons r rs =>
      rw [h] at ih
      have h1 : stripRight (c :: rest) = c :: r :: rs := by
        rw [stripRight_cons, h]
      rw [h1, stripRight_cons, ih]

theorem dropWhile_eq_self_of_firstWS {l : Str} (h : firstWS l = false) :
    l.dropWhile isWS = l := by
  cases l with
  | nil => rfl
  | cons c rest =>
    have hc : isWS c = false := h
    simp [List.dropWhile_cons, hc]

theorem firstWS_strip (l : Str) : firstWS (strip l) = false :=
  firstWS_stripRight (firstWS_dropWhile l)

theorem strip_strip (l : Str) : strip (strip l) = strip l := by
  unfold strip
  rw [dropWhile_eq_self_of_firstWS (firstWS_stripRight (firstWS_dropWhile l))]
  exact stripRight_idem _

/- ### `postTok` equations -/

theorem postTok_nil : postTok [] = [] := rfl

theorem postTok_cons (t : Str) (ts : List Str) :
    postTok (t :: ts) = if strip t = [] then postTok ts else strip t :: postTok ts := by
  by_cases h : strip t = []
  · simp [postTok, h]
  · simp [postTok, h, List.isEmpty_iff]

theorem postTok_cons_nil (ts : List Str) : postTok ([] :: ts) = postTok ts := by
  rw [postTok_cons]
  simp [strip_nil]

theorem postTok_consHead_ws {c : Char} (hc : isWS c = true) {X : List Str} (hX : X ≠ []) :
    postTok (consHead c X) = postTok X := by
  cases X with
  | nil => exact absurd rfl hX
  | cons h ts =>
    simp only [consHead]
    rw [postTok_cons, postTok_cons, strip_cons_ws hc]

theorem postTok_consHead_not_ws {c : Char} (hc : isWS c = false) (h : Str) (ts : List Str) :
    postTok (consHead c (h :: ts)) = (c :: stripRight h) :: postTok ts := by
  simp only [consHead]
  rw [postTok_cons, strip_cons_not_ws hc]
  simp

/- ### Branch equations for the two splitters -/

theorem reSplit_cons_tab (rest : Str) : reSplit ('\t' :: rest) = [] :: reSplit rest := by
  rw [reSplit_cons]
  simp

theorem reSplit_cons_run {c : Char} {rest : Str} (ht : ¬(c = '\t')) (hw : isWS c = true)
    (hf : firstWS rest = true) :
    reSplit (c :: rest) = [] :: reSplit (rest.dropWhile isWS) := by
  rw [reSplit_cons, if_neg ht, if_pos (by simp [hw, hf])]

theorem reSplit_cons_tok {c : Char} {rest : Str} (ht : ¬(c = '\t'))
    (h : isWS c = false ∨ firstWS rest = false) :
    reSplit (c :: rest) = consHead c (reSplit rest) := by
  rw [reSplit_cons, if_neg ht, if_neg (by rcases h with h | h <;> simp [h])]

theorem specSplit_cons_delim {c : Char} {rest : Str}
    (h : c = '\t' ∨ (isWS c = true ∧ firstWS rest = true)) :
    specSplit (c :: rest) = [] :: specSplit (rest.dropWhile isWS) := by
  rw [specSplit_cons_raw, if_pos ?_]
  rcases h with h | ⟨hw, hf⟩
  · subst h
    have h1 : isWS '\t' = true := by decide
    simp [List.contains_cons, h1]
  · cases rest with
    | nil => simp [firstWS] at hf
    | cons d rest2 =>
      have hd : isWS d = true := hf
      simp [hw, List.takeWhile_cons, hd]

theorem specSplit_cons_tok {c : Char} {rest : Str} (ht : ¬(c = '\t'))
    (h : isWS c = false ∨ firstWS rest = false) :
    specSplit (c :: rest) = consHead c (specSplit rest) := by
  rw [specSplit_cons_raw, if_neg ?_]
  rcases h with h | h
  · simp [h]
  · cases rest with
    | nil =>
      simp [List.takeWhile_nil, List.contains_cons, ht]
      intro _ h2
      exact ht h2.symm
    | cons d rest2 =>
      have hd : isWS d = false := h
      simp [List.takeWhile_cons, hd, List.contains_cons, ht]
      intro _ h2
      exact ht h2.symm

theorem reSplit_ne_nil (l : Str) : reSplit l ≠ [] := by
  cases l with
  | nil => simp [reSplit_nil]
  | cons c rest =>
    rw [reSplit_cons]
    split
    · simp
    · split
      · simp
      · exact consHead_ne_nil c _

theorem specSplit_ne_nil (l : Str) : specSplit l ≠ [] := by
  cases l with
  | nil => simp [specSplit_nil]
  | cons c rest =>
    rw [specSplit_cons_raw]
    split
    · simp
    · exact consHead_ne_nil c _

/- ### Leading whitespace does not matter to the spec splitter, up to `postTok` -/

theorem specSplit_dropWhile (l : Str) :
    postTok (specSplit (l.dropWhile isWS)) = postTok (specSplit l) := by
  cases l with
  | nil => rfl
  | cons c rest =>
    by_cases hw : isWS c = true
    · rw [List.dropWhile_cons, if_pos hw]
      by_cases ht : c = '\t'
      · rw [specSplit_cons_delim (Or.inl ht), postTok_cons_nil]
      · by_cases hf : firstWS rest = true
        · rw [specSplit_cons_delim (Or.inr ⟨hw, hf⟩), postTok_cons_nil]
        · have hf2 : firstWS rest = false := by simpa using hf
          rw [dropWhile_eq_self_of_firstWS hf2]
          rw [specSplit_cons_tok ht (Or.inr hf2)]
          rw [postTok_consHead_ws hw (specSplit_ne_nil rest)]
    · have hw2 : isWS c = false := by simpa using hw
      rw [List.dropWhile_cons, if_neg (by simp [hw2])]

/- ### The code splitter and the specification splitter agree after stripping -/

theorem reSpec_agree (l : Str) :
    (reSplit l).headI = (specSplit l).headI ∧
      postTok (reSplit l) = postTok (specSplit l) := by
  cases l with
  | nil =>
    rw [reSplit_nil, specSplit_nil]
    exact ⟨rfl, rfl⟩
  | cons c rest =>
    by_cases ht : c = '\t'
    · subst ht
      rw [reSplit_cons_tab, specSplit_cons_delim (Or.inl rfl)]
      refine ⟨rfl, ?_⟩
      rw [postTok_cons_nil, postTok_cons_nil]
      rw [(reSpec_agree rest).2, specSplit_dropWhile rest]
    · by_cases hw : isWS c = true
      · by_cases hf : firstWS rest = true
        · rw [reSplit_cons_run ht hw hf, specSplit_cons_delim (Or.inr ⟨hw, hf⟩)]
          refine ⟨rfl, ?_⟩
          rw [postTok_cons_nil, postTok_cons_nil]
          exact (reSpec_agree (rest.dropWhile isWS)).2
        · have hf2 : firstWS rest = false := by simpa using hf
          rw [reSplit_cons_tok ht (Or.inr hf2), specSplit_cons_tok ht (Or.inr hf2)]
          obtain ⟨hh, hp⟩ := reSpec_agree rest
          obtain ⟨a, as, hA⟩ := List.exists_cons_of_ne_nil (reSplit_ne_nil rest)
          obtain ⟨b, bs, hB⟩ := List.exists_cons_of_ne_nil (specSplit_ne_nil rest)
          rw [hA, hB] at hh hp ⊢
          have hab : a = b := by simpa [List.headI] using hh
          subst hab
          refine ⟨by simp [consHead, List.headI], ?_⟩
          rw [postTok_consHead_ws hw (by simp), postTok_consHead_ws hw (by simp)]
          exact hp
      · have hw2 : isWS c = false := by simpa using hw
        rw [reSplit_cons_tok ht (Or.inl hw2), specSplit_cons_tok ht (Or.inl hw2)]
        obtain ⟨hh, hp⟩ := reSpec_agree rest
        obtain ⟨a, as, hA⟩ := List.exists_cons_of_ne_nil (reSplit_ne_nil rest)
        obtain ⟨b, bs, hB⟩ := List.exists_cons_of_ne_nil (specSplit_ne_nil rest)
        rw [hA, hB] at hh hp ⊢
        have hab : a = b := by simpa [List.headI] using hh
        subst hab
        refine ⟨by simp [consHead, List.headI], ?_⟩
        rw [postTok_consHead_not_ws hw2 a as, postTok_consHead_not_ws hw2 a bs]
        rw [postTok_cons, postTok_cons] at hp
        by_cases hsa : strip a = []
        · rw [if_pos hsa, if_pos hsa] at hp
          rw [hp]
        · rw [if_neg hsa, if_neg hsa] at hp
          rw [List.cons.injEq] at hp
          rw [hp.2]
termination_by l.length
decreasing_by
  all_goals simp only [List.length_cons]
  all_goals first
    | omega
    | exact Nat.lt_succ_of_le (length_dropWhile_ws_le _)

/- ### The checked pipeline never raises -/

theorem mapOptM_eq_some {α β : Type} (f : α → Option β) (g : α → β)
    (hfg : ∀ x, f x = some (g x)) : ∀ l : List α, mapOptM f l = some (l.map g) := by
  intro l
  induction l with
  | nil => rfl
  | cons x xs ih => simp [mapOptM, hfg x, ih]

theorem checked_eq_some (text : Str) :
    format_text_to_table_checked text = some (format_text_to_table_body text) := by
  unfold format_text_to_table_checked format_text_to_table_body
  rw [show pySplitLines text = some (splitOnChar '\n' text) from rfl, Option.some_bind]
  rw [mapOptM_eq_some pyStrip strip (fun x => rfl), Option.some_bind]
  rw [mapOptM_eq_some
    (fun line =>
      (pyReSplit line).bind fun cols =>
      (mapOptM pyStrip cols).bind fun strippedCols =>
      some (strippedCols.filter (fun c => !c.isEmpty)))
    (fun line => ((reSplit line).map strip).filter (fun c => !c.isEmpty))
    (fun line => by
      simp only [pyReSplit, Option.some_bind, mapOptM_eq_some pyStrip strip (fun x => rfl)])]
  rw [Option.some_bind]

theorem format_eq_body (text : Str) :
    format_text_to_table text = format_text_to_table_body text := by
  rw [format_text_to_table, checked_eq_some]

/- ### Rows of the body are the spec rows -/

theorem filter_map_eq_map_of {α : Type} (L : List α) (f g : α → List Str)
    (h : ∀ x ∈ L, f x = g x ∧ f x ≠ []) :
    (L.map f).filter (fun r => !r.isEmpty) = L.map g := by
  induction L with
  | nil => rfl
  | cons a L ih =>
    obtain ⟨h1, h2⟩ := h a (List.mem_cons_self a L)
    have h3 : (!(f a).isEmpty) = true := by simpa [List.isEmpty_iff] using h2
    simp only [List.map_cons, List.filter_cons, h3, if_true]
    rw [h1, ih (fun x hx => h x (List.mem_cons_of_mem _ hx))]

theorem postTok_reSplit_ne_nil {l : Str} (h1 : l ≠ []) (h2 : firstWS l = false) :
    postTok (reSplit l) ≠ [] := by
  cases l with
  | nil => exact absurd rfl h1
  | cons c rest =>
    have hw : isWS c = false := h2
    have ht : ¬(c = '\t') := by
      intro h
      rw [h] at hw
      exact absurd hw (by decide)
    rw [reSplit_cons_tok ht (Or.inl hw)]
    obtain ⟨a, as, hA⟩ := List.exists_cons_of_ne_nil (reSplit_ne_nil rest)
    rw [hA, postTok_consHead_not_ws hw a as]
    simp

theorem mem_stripped_lines {text : Str} {x : Str}
    (hx : x ∈ ((splitOnChar '\n' text).map strip).filter (fun l => !l.isEmpty)) :
    x ≠ [] ∧ firstWS x = false := by
  rw [List.mem_filter] at hx
  obtain ⟨hmem, hne⟩ := hx
  constructor
  · simpa [List.isEmpty_iff] using hne
  · rw [List.mem_map] at hmem
    obtain ⟨y, _, hy⟩ := hmem
    rw [← hy]
    exact firstWS_strip y

/-- C8: for every input string the body of `format_text_to_table` (newline
split, stripping, regex split, filtering) never raises - the checked pipeline
always returns `some` - so the fallback branch returning `[[text]]` is
unreachable and `format_text_to_table` always returns the body's value. -/
theorem C8_body_never_raises (text : Str) :
    format_text_to_table_checked text = some (format_text_to_table_body text) ∧
      format_text_to_table text = format_text_to_table_body text :=
  ⟨checked_eq_some text, format_eq_body text⟩

/-- C1: for every input string, `format_text_to_table` returns exactly the
rows described by the specification: the input split by newlines, lines empty
after stripping dropped, each remaining line split on a tab or a run of two or
more whitespace characters, tokens empty after stripping dropped, and each
remaining line contributing one row of its remaining tokens, in line order. -/
theorem C1_format_matches_spec (text : Str) :
    format_text_to_table text = format_text_to_table_spec text := by
  rw [format_eq_body]
  unfold format_text_to_table_body format_text_to_table_spec
  apply filter_map_eq_map_of
  intro x hx
  obtain ⟨hne, hws⟩ := mem_stripped_lines hx
  constructor
  · exact (reSpec_agree x).2
  · exact postTok_reSplit_ne_nil hne hws

/- ### Single-line inputs without delimiters (claim C2) -/

theorem splitOnChar_single {sep : Char} {text : Str} (h : sep ∉ text) :
    splitOnChar sep text = [text] := by
  induction text with
  | nil => rfl
  | cons c rest ih =>
    have hc : ¬(c = sep) := by
      intro hc
      exact h (hc ▸ List.mem_cons_self c rest)
    have hrest : sep ∉ rest := fun hm => h (List.mem_cons_of_mem c hm)
    simp only [splitOnChar, if_neg hc, ih hrest]

theorem reSplit_no_delim {l : Str} (h : hasDelim l = false) : reSplit l = [l] := by
  induction l with
  | nil => exact reSplit_nil
  | cons c rest ih =>
    simp only [hasDelim, Bool.or_eq_false_iff, decide_eq_false_iff_not,
      Bool.and_eq_false_iff] at h
    obtain ⟨⟨ht, hcf⟩, hrest⟩ := h
    have hor : isWS c = false ∨ firstWS rest = false := by
      rcases hcf with h | h
      · left
        simpa using h
      · right
        simpa using h
    rw [reSplit_cons_tok ht hor, ih hrest]
    rfl

/-- C2: a single-line input (no newline), non-empty after stripping and with
no tab and no run of two or more consecutive whitespace characters inside the
stripped text, is formatted as a single row with the stripped input as its
only column. -/
theorem C2_single_line_single_column (text : Str) (h1 : '\n' ∉ text)
    (h2 : strip text ≠ []) (h3 : hasDelim (strip text) = false) :
    format_text_to_table text = [[strip text]] := by
  rw [format_eq_body]
  unfold format_text_to_table_body
  rw [splitOnChar_single h1]
  have h2e : (!(strip text).isEmpty) = true := by simpa [List.isEmpty_iff] using h2
  simp only [List.map_cons, List.map_nil, List.filter_cons, List.filter_nil, h2e, if_true]
  rw [reSplit_no_delim h3]
  simp only [List.map_cons, List.map_nil, List.filter_cons, List.filter_nil]
  rw [strip_strip]
  simp [h2e]

/-- Witness for C2 at the concrete input `"a b"`. -/
theorem C2_single_line_single_column_witness :
    ('\n' ∉ (['a', ' ', 'b'] : Str)) ∧ strip ['a', ' ', 'b'] ≠ [] ∧
      hasDelim (strip ['a', ' ', 'b']) = false ∧
      format_text_to_table ['a', ' ', 'b'] = [[strip ['a', ' ', 'b']]] :=
  ⟨by decide, by decide, by decide,
    C2_single_line_single_column ['a', ' ', 'b'] (by decide) (by decide) (by decide)⟩

/-- C4: when the parsing body of `format_text_to_table` raises (modelled by
`exc = some e`), the `except` branch returns a single row whose only element
is the original input text; with no exception the body's result is returned. -/
theorem C4_fallback_returns_original (e : Str) (text : Str) :
    format_text_to_table_run (some e) text = [[text]] ∧
      format_text_to_table_run none text = format_text_to_table_body text :=
  ⟨rfl, rfl⟩

/- ### Row and token invariants (claim C9) -/

theorem strip_fixed_of_mem_postTok {tok : Str} {cols : List Str}
    (h : tok ∈ (cols.map strip).filter (fun c => !c.isEmpty)) :
    tok ≠ [] ∧ strip tok = tok := by
  rw [List.mem_filter] at h
  obtain ⟨hmem, hne⟩ := h
  refine ⟨by simpa [List.isEmpty_iff] using hne, ?_⟩
  rw [List.mem_map] at hmem
  obtain ⟨c, _, hc⟩ := hmem
  rw [← hc]
  exact strip_strip c

/-- C9: every row returned by `format_text_to_table` is non-empty, and every
token in a row is a non-empty string unchanged by stripping (hence with no
leading or trailing whitespace). -/
theorem C9_rows_nonempty_tokens_stripped (text : Str) (row : List Str)
    (hrow : row ∈ format_text_to_table text) :
    row ≠ [] ∧ ∀ tok ∈ row, tok ≠ [] ∧ strip tok = tok := by
  rw [format_eq_body] at hrow
  unfold format_text_to_table_body at hrow
  rw [List.mem_filter] at hrow
  obtain ⟨hmem, hne⟩ := hrow
  refine ⟨by simpa [List.isEmpty_iff] using hne, ?_⟩
  rw [List.mem_map] at hmem
  obtain ⟨line, _, hline⟩ := hmem
  intro tok htok
  rw [← hline] at htok
  exact strip_fixed_of_mem_postTok htok

/-- Witness for C9 at the concrete input `"a"` and its only row. -/
theorem C9_rows_nonempty_tokens_stripped_witness :
    ([['a']] ∈ format_text_to_table ['a']) ∧
      ([['a']] ≠ ([] : List Str) ∧ ∀ tok ∈ [['a']], tok ≠ [] ∧ strip tok = tok) :=
  ⟨by decide, C9_rows_nonempty_tokens_stripped ['a'] [['a']] (by decide)⟩

/- ### Spreadsheet values (claims C3 and C10) -/

/-- C3: the data rows appended by `save_to_spreadsheet` are exactly the rows
of `format_text_to_table` applied to the input text, each with the timestamp
string prepended, in the same order (the appended `values` list is the header
followed by these rows and nothing else). -/
theorem C3_data_rows_are_timestamped_parsed_rows (text current_time : Str) :
    (save_to_spreadsheet_values text current_time).tail =
      (format_text_to_table text).map (fun row => current_time :: row) ∧
    (save_to_spreadsheet_values text current_time).length =
      (format_text_to_table text).length + 1 := by
  unfold save_to_spreadsheet_values
  exact ⟨rfl, by simp⟩

/-- C10: `save_to_spreadsheet` prepends exactly one header row: the timestamp
label followed by one numbered column label per column of the first parsed row
only (zero labels when nothing parses); and later rows may be shorter or
longer than the header, witnessed by the inputs `"a\tb\nc"` (header of 3
cells, second data row of 2) and `"a\nb\tc"` (header of 2 cells, second data
row of 3). -/
theorem C10_single_header_row_from_first_row (text current_time : Str) :
    (save_to_spreadsheet_values text current_time).head? =
      some (dateLabel ::
        (List.range
          (match format_text_to_table text with | [] => 0 | r :: _ => r.length)).map
          colLabel) ∧
    ((save_to_spreadsheet_values ['a', '\t', 'b', '\n', 'c'] ['T']).head?.map
        List.length = some 3 ∧
      ((save_to_spreadsheet_values ['a', '\t', 'b', '\n', 'c'] ['T']).get? 2).map
        List.length = some 2) ∧
    ((save_to_spreadsheet_values ['a', '\n', 'b', '\t', 'c'] ['T']).head?.map
        List.length = some 2 ∧
      ((save_to_spreadsheet_values ['a', '\n', 'b', '\t', 'c'] ['T']).get? 2).map
        List.length = some 3) := by
  refine ⟨rfl, ⟨?_, ?_⟩, ⟨?_, ?_⟩⟩ <;> decide

/- ### The `/callback` route (claim C5) -/

/-- Counterexample to C5 as stated: when `handler.handle` raises an exception
other than `InvalidSignatureError` - a malformed body with a valid signature,
or an exception escaping `handle_image_message` - the signature is not
invalid, yet `/callback` does not return `'OK'` (nor abort with 400): the
exception propagates uncaught out of the route. -/
theorem C5_counterexample :
    callback_route (HandleOutcome.otherRaise ['j']) = CallbackResult.raised ['j'] ∧
      callback_route (HandleOutcome.otherRaise ['j']) ≠ CallbackResult.okBody ∧
      callback_route (HandleOutcome.otherRaise ['j']) ≠ CallbackResult.aborted 400 :=
  ⟨rfl, by decide, by decide⟩

/-- C5 (amended): when the webhook request's signature is invalid the
`/callback` endpoint aborts the request with HTTP status 400; when
`handler.handle` returns normally it returns `'OK'`; and when
`handler.handle` raises any exception other than `InvalidSignatureError`,
that exception propagates uncaught out of the endpoint. -/
theorem C5_amended_callback_behaviour :
    callback_route HandleOutcome.invalidSignature = CallbackResult.aborted 400 ∧
      callback_route HandleOutcome.success = CallbackResult.okBody ∧
      ∀ e, callback_route (HandleOutcome.otherRaise e) = CallbackResult.raised e :=
  ⟨rfl, rfl, fun _ => rfl⟩

/- ### The image-message handler (claims C6 and C7) -/

/-- Counterexample to C6 as stated: when the spreadsheet `append` call raises
(`envC6sheet`), the exception is caught inside `save_to_spreadsheet`, not by
the handler, and the handler sends the normal success reply - no text reply
describing the error is sent.  And when the reply and the error reply both
raise (`envC6prop`), the error reply's exception propagates out of the
handler. -/
theorem C6_counterexample :
    (handle_image_message envC6sheet).trace =
      [StepTag.getContent, StepTag.writeFile, StepTag.extractText, StepTag.formatRows,
        StepTag.appendSheet, StepTag.sendReply] ∧
    StepTag.sendErrorReply ∉ (handle_image_message envC6sheet).trace ∧
    (handle_image_message envC6sheet).reply = some (successHead ++ ['t']) ∧
    (handle_image_message envC6sheet).outcome = HandlerOutcome.returned ∧
    envC6sheet.appendRes = Except.error ['b'] ∧
    (handle_image_message envC6prop).outcome = HandlerOutcome.raised ['q'] :=
  ⟨rfl, by decide, rfl, rfl, rfl, rfl⟩

/-- C6 (amended): if downloading the image, writing it, or sending the reply
raises, the handler catches the exception and attempts a text reply
describing the error, with no retry; the handler returns normally when that
error reply succeeds and raises the error reply's exception when it does not.
Exceptions inside text extraction and inside the spreadsheet save never reach
the handler (its behaviour does not depend on the `append` outcome), and no
step is ever attempted twice. -/
theorem C6_amended_error_handling :
    (∀ env e, (handle_try env).exc = some e →
      (handle_image_message env).trace = (handle_try env).trace ++ [StepTag.sendErrorReply] ∧
      (env.errorReplyRes = Except.ok () →
        (handle_image_message env).reply = some (errText ++ e) ∧
        (handle_image_message env).outcome = HandlerOutcome.returned) ∧
      (∀ e2, env.errorReplyRes = Except.error e2 →
        (handle_image_message env).outcome = HandlerOutcome.raised e2)) ∧
    (∀ c w x s a a2 r er id,
      handle_image_message ⟨c, w, x, s, a, r, er, id⟩ =
        handle_image_message ⟨c, w, x, s, a2, r, er, id⟩) ∧
    (∀ env t, ((handle_image_message env).trace).count t ≤ 1) := by
  refine ⟨?_, ?_, ?_⟩
  · intro env e he
    cases her : env.errorReplyRes with
    | ok u =>
      cases u
      refine ⟨?_, fun _ => ⟨?_, ?_⟩, fun e2 h2 => ?_⟩
      · simp [handle_image_message, he, her]
      · simp [handle_image_message, he, her]
      · simp [handle_image_message, he, her]
      · exact absurd h2 (by simp)
    | error e2 =>
      refine ⟨?_, fun hok => ?_, fun e3 h3 => ?_⟩
      · simp [handle_image_message, he, her]
      · exact absurd hok (by simp)
      · injection h3 with h4
        subst h4
        simp [handle_image_message, he, her]
  · intro c w x s a a2 r er id
    cases a <;> cases a2 <;> rfl
  · intro env t
    obtain ⟨c, w, x, s, a, r, er, id⟩ := env
    refine List.nodup_iff_count_le_one.mp ?_ t
    cases c <;> cases w <;> cases s <;> cases a <;> cases r <;> cases er <;> cases id <;>
      (simp only [handle_image_message, handle_try, save_to_spreadsheet_run]; decide)

/-- Witness for the amended C6: in `envC6wit` the download raises and the
error reply is attempted as the final step. -/
theorem C6_amended_witness :
    (handle_try envC6wit).exc = some ['x'] ∧
      (handle_image_message envC6wit).trace =
        (handle_try envC6wit).trace ++ [StepTag.sendErrorReply] :=
  ⟨by decide, (C6_amended_error_handling.1 envC6wit ['x'] (by decide)).1⟩

/-- Counterexample to C7 as stated: for the incoming image-message event
`envC7skip` the spreadsheet id is configured, but the download raises, so the
extraction and append steps are skipped and an error reply is sent instead -
the fixed sequence of steps is not performed for every event. -/
theorem C7_counterexample :
    envC7skip.spreadsheetId = some ['S'] ∧
    handle_image_message envC7skip =
      ⟨[StepTag.getContent, StepTag.sendErrorReply], some (errText ++ ['x']),
        HandlerOutcome.returned⟩ ∧
    StepTag.extractText ∉ (handle_image_message envC7skip).trace ∧
    StepTag.appendSheet ∉ (handle_image_message envC7skip).trace :=
  ⟨rfl, rfl, by decide, by decide⟩

/-- C7 (amended): for every image-message event with a configured spreadsheet
identifier, provided downloading, writing the file, loading the spreadsheet
credentials and sending the reply do not raise, the handler performs its steps
in the fixed order download → write file → extract text → format rows →
append to the spreadsheet → reply, with no step skipped or reordered, and
returns normally; if an earlier step raises, the remaining steps are skipped
and an error reply is sent instead (shown by `C7_counterexample`'s shape). -/
theorem C7_amended_pipeline_order (env : Env) (sid : Str)
    (hid : env.spreadsheetId = some sid)
    (hc : env.contentRes = Except.ok ())
    (hw : env.writeRes = Except.ok ())
    (hs : env.serviceRes = Except.ok ())
    (hr : env.replyRes = Except.ok ()) :
    handle_image_message env =
      ⟨[StepTag.getContent, StepTag.writeFile, StepTag.extractText, StepTag.formatRows,
          StepTag.appendSheet, StepTag.sendReply],
        some (successHead ++ extract_text_from_image env.extractInner),
        HandlerOutcome.returned⟩ := by
  cases ha : env.appendRes <;>
    simp [handle_image_message, handle_try, save_to_spreadsheet_run, hc, hw, hid, hs, hr, ha]

/-- Witness for the amended C7 at the all-successful environment `envC7ok`. -/
theorem C7_amended_pipeline_order_witness :
    handle_image_message envC7ok =
      ⟨[StepTag.getContent, StepTag.writeFile, StepTag.extractText, StepTag.formatRows,
          StepTag.appendSheet, StepTag.sendReply],
        some (successHead ++ ['t']), HandlerOutcome.returned⟩ :=
  C7_amended_pipeline_order envC7ok ['S'] rfl rfl rfl rfl rfl
